import Mathlib

/-!
Verification development for the `llm_compare` orchestration core.

Shallow embedding of the Python sources:
  * `src/llm_compare/cost_tracker.py`  — pricing table and cost estimation
  * `src/llm_compare/validators.py`    — prompt validation
  * `src/llm_compare/api_client.py`    — single-call executor and fan-out orchestrator
  * `src/llm_compare/analytics.py`     — aggregate statistics over result lists

Machine floats in the sources are modelled as rationals (`ℚ`); Python
`Optional[T]` is `Option T`; raised exceptions are `Except` values.
Python dictionaries preserve insertion order, so the pricing table is a
list of key/value pairs in the source's insertion order.
-/

namespace LLMCompare

/-! ## Python string primitives

Python `str` values are sequences of code points; the embedding works on a
Lean `String`'s underlying character list so that every operation is
structurally recursive (and hence evaluates inside `decide`/`rfl` proofs). -/

/-- Python `s.lower()` restricted to the ASCII range, which is all the source
ever lower-cases (model identifiers). -/
def pyLower (s : String) : String :=
  ⟨s.data.map Char.toLower⟩

/-- Python `s.startswith(p)` / the slicing guard of the normalisation loop. -/
def pyStartsWith (p s : String) : Bool :=
  p.data.isPrefixOf s.data

/-- Python `s[n:]` (drop the first `n` code points). -/
def pyDrop (s : String) (n : ℕ) : String :=
  ⟨s.data.drop n⟩

/-- Python `c in s` for a single character `c`. -/
def pyContainsChar (s : String) (c : Char) : Bool :=
  s.data.contains c

/-- Python `len(s)`: number of code points. -/
def pyLen (s : String) : ℕ :=
  s.data.length

/-- Exception values surface as `Except`; equality of outcomes is decidable so
concrete runs can be checked by evaluation. -/
instance {ε α : Type} [DecidableEq ε] [DecidableEq α] : DecidableEq (Except ε α)
  | .error x, .error y =>
    if h : x = y then .isTrue (by rw [h])
    else .isFalse (fun hc => by cases hc; exact h rfl)
  | .error _, .ok _ => .isFalse (fun hc => by cases hc)
  | .ok _, .error _ => .isFalse (fun hc => by cases hc)
  | .ok x, .ok y =>
    if h : x = y then .isTrue (by rw [h])
    else .isFalse (fun hc => by cases hc; exact h rfl)

/-- The `MODEL_COSTS` table of `cost_tracker.py`: model key, cost per 1M input
tokens, cost per 1M output tokens, in the dictionary's insertion order (the
order of the fallback scan in `estimate_cost`). -/
def MODEL_COSTS : List (String × ℚ × ℚ) :=
  [ ("gpt-4o", (2.50, 10.00))
  , ("gpt-4o-2024-11-20", (2.50, 10.00))
  , ("gpt-4o-2024-08-06", (2.50, 10.00))
  , ("gpt-4o-2024-05-13", (5.00, 15.00))
  , ("gpt-4o-mini", (0.15, 0.60))
  , ("gpt-4o-mini-2024-07-18", (0.15, 0.60))
  , ("gpt-4-turbo", (10.00, 30.00))
  , ("gpt-4-turbo-2024-04-09", (10.00, 30.00))
  , ("gpt-4-turbo-preview", (10.00, 30.00))
  , ("gpt-4", (30.00, 60.00))
  , ("gpt-4-0613", (30.00, 60.00))
  , ("gpt-4-0314", (30.00, 60.00))
  , ("gpt-3.5-turbo", (0.50, 1.50))
  , ("gpt-3.5-turbo-0125", (0.50, 1.50))
  , ("gpt-3.5-turbo-1106", (1.00, 2.00))
  , ("claude-3-5-sonnet-20241022", (3.00, 15.00))
  , ("claude-3-5-sonnet-20240620", (3.00, 15.00))
  , ("claude-3-opus-20240229", (15.00, 75.00))
  , ("claude-3-sonnet-20240229", (3.00, 15.00))
  , ("claude-3-haiku-20240307", (0.25, 1.25))
  , ("gemini/gemini-1.5-pro", (1.25, 5.00))
  , ("gemini/gemini-1.5-pro-latest", (1.25, 5.00))
  , ("gemini/gemini-1.5-flash", (0.075, 0.30))
  , ("gemini/gemini-1.5-flash-latest", (0.075, 0.30))
  , ("gemini/gemini-pro", (0.50, 1.50))
  ]

/-- The provider tags stripped by `estimate_cost` (`cost_tracker.py` line 68),
in the order the Python `for` loop visits them. -/
def PROVIDER_TAGS : List String := ["openai/", "anthropic/", "google/", "azure/"]

/-- Normalisation step of `estimate_cost` (lines 66-70): lower-case the model
name, then run the `for` loop that strips a leading provider tag; the loop
keeps going over the remaining tags on the already-stripped string, exactly as
the Python code does. -/
def normalizeModel (model : String) : String :=
  PROVIDER_TAGS.foldl
    (fun s tag => if pyStartsWith tag s then pyDrop s (pyLen tag) else s)
    (pyLower model)

/-- Exact lookup `MODEL_COSTS.get(normalized_model)` (line 73); dictionary keys
are unique, so the first list hit is the dictionary entry. -/
def lookupExact (key : String) : Option (ℚ × ℚ) :=
  (MODEL_COSTS.find? (fun kv => kv.1 == key)).map (·.2)

/-- The partial-match fallback loop of `estimate_cost` (lines 74-79): scan the
table in insertion order and keep the first entry whose key starts the
normalized name. -/
def fallbackMatch (norm : String) : Option (ℚ × ℚ) :=
  (MODEL_COSTS.find? (fun kv => pyStartsWith kv.1 norm)).map (·.2)

/-- The cost pair `estimate_cost` ends up using for a normalized name: the
exact dictionary entry if present, otherwise the first partial match. -/
def costsFor (norm : String) : Option (ℚ × ℚ) :=
  match lookupExact norm with
  | some cs => some cs
  | none => fallbackMatch norm

/-- `estimate_cost` of `cost_tracker.py` (lines 49-90). -/
def estimate_cost (model : String)
    (prompt_tokens completion_tokens : Option ℕ) : Option ℚ :=
  match prompt_tokens, completion_tokens with
  | some p, some c =>
    match costsFor (normalizeModel model) with
    | none => none
    | some (input_cost_per_1m, output_cost_per_1m) =>
      some ((p : ℚ) / 1000000 * input_cost_per_1m
            + (c : ℚ) / 1000000 * output_cost_per_1m)
  | _, _ => none

/-- The rule stated by the specification's component summary for the fallback
case: among the table keys that start the normalized name, use the entry of
the longest such key.  (Written from the spec's words, to be compared with
`costsFor`, which is written from the source.) -/
def costsForLongest (norm : String) : Option (ℚ × ℚ) :=
  match lookupExact norm with
  | some cs => some cs
  | none =>
    ((MODEL_COSTS.filter (fun kv => pyStartsWith kv.1 norm)).foldl
      (fun best kv =>
        match best with
        | none => some kv
        | some b => if pyLen kv.1 > pyLen b.1 then some kv else best)
      none).map (·.2)

/-! ## Validator (`validators.py`) -/

/-- `MAX_PROMPT_LENGTH` of `validators.py`. -/
def MAX_PROMPT_LENGTH : ℕ := 50000

/-- `MAX_SYSTEM_PROMPT_LENGTH` of `validators.py`. -/
def MAX_SYSTEM_PROMPT_LENGTH : ℕ := 10000

/-- The three distinct `raise ValueError` sites of `validate_prompt`. -/
inductive PromptError where
  | emptyInput
  | tooLong
  | invalidCharacter
  deriving DecidableEq, Repr

/-- `validate_prompt` of `validators.py` (lines 10-43): the checks run in
source order — emptiness, then length against the per-kind limit, then the
NUL-byte scan — and the first failing check raises. -/
def validate_prompt (prompt : String) (prompt_type : String) :
    Except PromptError Bool :=
  if prompt = "" then
    .error .emptyInput
  else
    let max_length :=
      if prompt_type = "system_prompt" then MAX_SYSTEM_PROMPT_LENGTH
      else MAX_PROMPT_LENGTH
    if pyLen prompt > max_length then
      .error .tooLong
    else if pyContainsChar prompt (Char.ofNat 0) then
      .error .invalidCharacter
    else
      .ok true

/-! ## Data model (`types.py`) -/

/-- `ModelResponse` of `types.py`: one structured result per model invocation.
`response_time` and `estimated_cost` are Python floats, modelled as `ℚ`. -/
structure ModelResponse where
  model : String
  response : Option String
  error : Option String
  response_time : Option ℚ
  prompt_tokens : Option ℕ
  completion_tokens : Option ℕ
  total_tokens : Option ℕ
  estimated_cost : Option ℚ
  deriving DecidableEq, Repr, Inhabited

/-- A usage record of a non-streaming completion response
(`response.usage`, read field by field at `api_client.py` lines 112-115). -/
structure Usage where
  prompt_tokens : ℕ
  completion_tokens : ℕ
  total_tokens : ℕ
  deriving DecidableEq, Repr

/-- One entry of the `messages` list built at `api_client.py` lines 67-71. -/
structure Message where
  role : String
  content : String
  deriving DecidableEq, Repr

/-- The message list of `get_model_response` (lines 67-71): the system message
is appended only when `system_prompt` is truthy (not `None` and not the empty
string), then the user message. -/
def buildMessages (system_prompt : Option String) (prompt : String) :
    List Message :=
  (match system_prompt with
   | some s => if s = "" then [] else [⟨"system", s⟩]
   | none => []) ++ [⟨"user", prompt⟩]

/-! ## Single-call executor (`api_client.py`)

The remote completion call (`litellm.acompletion`) is an external
collaborator.  Following the spec's interface (§6), one attempt either
returns a completion — response text, optional usage record, the streamed
delta fragments, and the wall-clock time the call took — or raises an
exception carrying its string rendering.  An environment maps the outbound
arguments and the attempt number to that attempt's outcome. -/

/-- A successful completion as the executor observes it: `content` is
`response.choices[0].message.content`, `usage` is the optional
`response.usage`, `chunks` are the streamed `delta.content` fragments
(`None` entries are deltas without content), and `elapsed` is the wall-clock
duration `end_time - start_time` around the call. -/
structure CompletionSuccess where
  content : String
  usage : Option Usage
  chunks : List (Option String)
  elapsed : ℚ

/-- Outcome of one remote attempt: a completion, or a raised exception
rendered as `str(e)`. -/
inductive CallOutcome where
  | ok (s : CompletionSuccess)
  | exn (msg : String)

/-- The exact argument tuple `acompletion` is invoked with
(`api_client.py` lines 168-174); `timeout` is the only client field that
reaches the outbound call. -/
structure OutboundArgs where
  model : String
  messages : List Message
  temperature : ℚ
  stream : Bool
  timeout : ℕ
  deriving DecidableEq, Repr

/-- The constructor arguments of `LLMAPIClient` (lines 25-41), stored on the
instance as `self.max_retries`, `self.retry_delay`, `self.timeout`. -/
structure ClientConfig where
  max_retries : ℕ
  retry_delay : ℚ
  timeout : ℕ
  deriving DecidableEq, Repr

/-- The remote collaborator: outcome of each numbered attempt (attempts are
numbered from 1) of a call with the given outbound arguments. -/
def AttemptEnv : Type := OutboundArgs → ℕ → CallOutcome

/-- The `tenacity` retry parameters: number of attempts allowed by the `stop`
condition and the `wait_exponential(multiplier, min, max)` arguments. -/
structure RetryPolicy where
  attempts : ℕ
  multiplier : ℚ
  waitMin : ℚ
  waitMax : ℚ
  deriving DecidableEq, Repr

/-- The decorator literally written on `_call_llm_with_retry` (lines 143-148):
`stop_after_attempt(3)`, `wait_exponential(multiplier=1, min=1, max=10)`. -/
def retryDecoratorPolicy : RetryPolicy := ⟨3, 1, 1, 10⟩

/-- The retry policy governing `_call_llm_with_retry` for a given client: the
decorator is evaluated once at class-definition time with hardcoded
arguments, so no instance field enters it. -/
def callRetryPolicy (_c : ClientConfig) : RetryPolicy := retryDecoratorPolicy

/-- `wait_exponential(multiplier, min, max)` after the numbered attempt:
`multiplier * 2^(attempt-1)` clamped into `[min, max]`. -/
def waitAfter (p : RetryPolicy) (attemptNumber : ℕ) : ℚ :=
  max p.waitMin (min (p.multiplier * 2 ^ (attemptNumber - 1)) p.waitMax)

/-- The bounded retry loop of the `tenacity` decorator with `reraise=True`:
run numbered attempts while the stop condition allows, sleeping the
exponential wait between failed attempts; a success returns at once, and the
final attempt's exception is reraised unchanged.  Returns the final outcome
together with the list of waits slept. -/
def retryLoop (p : RetryPolicy) (env : ℕ → CallOutcome) :
    ℕ → ℕ → CallOutcome × List ℚ
  | 0, k => (env k, [])
  | 1, k => (env k, [])
  | n + 2, k =>
    match env k with
    | .ok s => (.ok s, [])
    | .exn _ =>
      let rest := retryLoop p env (n + 1) (k + 1)
      (rest.1, waitAfter p k :: rest.2)

/-- `_call_llm_with_retry` (lines 143-174): run the decorator's retry loop
over the outbound call, whose argument tuple takes only `timeout` from the
client. -/
def callWithRetry (c : ClientConfig) (env : AttemptEnv) (args : OutboundArgs) :
    CallOutcome × List ℚ :=
  retryLoop (callRetryPolicy c) (env args) (callRetryPolicy c).attempts 1

/-- The accumulation loop of the streaming branch (lines 83-90): concatenate
the truthy `delta.content` fragments. -/
def accumulateChunks (chunks : List (Option String)) : String :=
  chunks.foldl
    (fun acc c =>
      match c with
      | some s => if s = "" then acc else acc ++ s
      | none => acc)
    ""

/-- `get_model_response` (lines 43-141).  The `try` block issues the retried
call; on an exception everything but `model` and `error` is `None`
(lines 131-141).  On success the streaming branch accumulates chunks and
leaves usage and cost absent (lines 81-106); the non-streaming branch reads
the optional usage record and estimates the cost (lines 107-129). -/
def get_model_response (c : ClientConfig) (env : AttemptEnv) (model : String)
    (prompt : String) (temperature : ℚ) (system_prompt : Option String)
    (stream : Bool) : ModelResponse :=
  let messages := buildMessages system_prompt prompt
  match (callWithRetry c env ⟨model, messages, temperature, stream, c.timeout⟩).1 with
  | .exn e =>
    { model := model, response := none, error := some e, response_time := none
      prompt_tokens := none, completion_tokens := none, total_tokens := none
      estimated_cost := none }
  | .ok s =>
    if stream then
      { model := model, response := some (accumulateChunks s.chunks)
        error := none, response_time := some s.elapsed
        prompt_tokens := none, completion_tokens := none, total_tokens := none
        estimated_cost := none }
    else
      let pt := s.usage.map Usage.prompt_tokens
      let ct := s.usage.map Usage.completion_tokens
      { model := model, response := some s.content, error := none
        response_time := some s.elapsed
        prompt_tokens := pt, completion_tokens := ct
        total_tokens := s.usage.map Usage.total_tokens
        estimated_cost := estimate_cost model pt ct }

/-! ## Fan-out orchestrator (`api_client.py` `compare_models`)

`asyncio.gather` starts one task per model, in list order, and places each
task's result at the task's own index of the result list no matter when the
task finishes.  The embedding makes the completion schedule explicit: `order`
lists task indices in completion order, and each completing task writes its
result into its own slot; gathering returns once every task has completed
(hypothesis: every index occurs in `order`). -/

/-- The slot array after all completions in `order` have written their
results: completing task `i` stores `tasks[i]` at index `i`. -/
def gatherSlots {α : Type} (tasks : List α) (order : List ℕ) :
    ℕ → Option α :=
  order.foldl (fun slots i => fun j => if j = i then tasks[i]? else slots j)
    (fun _ => none)

/-- The gathered result list: one slot per task, read out in task order after
the completions in `order`. -/
def asyncGather {α : Type} [Inhabited α] (tasks : List α) (order : List ℕ) :
    List α :=
  (List.range tasks.length).map (fun i => (gatherSlots tasks order i).getD default)

/-- The validation block of `compare_models` (lines 241-244):
`validate_prompt(prompt, "prompt")`, then — only when `system_prompt` is
truthy — `validate_prompt(system_prompt, "system_prompt")`. -/
def batchValidate (prompt : String) (system_prompt : Option String) :
    Except PromptError Bool :=
  match validate_prompt prompt "prompt" with
  | .error e => .error e
  | .ok _ =>
    match system_prompt with
    | some s => if s = "" then .ok true else validate_prompt s "system_prompt"
    | none => .ok true

/-- `compare_models` (lines 220-261): validate, create one
`get_model_response` task per model in list order, gather them under the
completion schedule `order`, and return the slot-ordered results. -/
def compare_models (c : ClientConfig) (env : AttemptEnv) (prompt : String)
    (models : List String) (temperature : ℚ) (system_prompt : Option String)
    (stream : Bool) (order : List ℕ) :
    Except PromptError (List ModelResponse) :=
  match batchValidate prompt system_prompt with
  | .error e => .error e
  | .ok _ =>
    .ok (asyncGather
      (models.map (fun m =>
        get_model_response c env m prompt temperature system_prompt stream))
      order)

/-- The outbound invocations `compare_models` issues: none when validation
raises, otherwise one retried call per model, each with the argument tuple of
`_call_llm_with_retry` (each such invocation makes between one and three
remote attempts). -/
def compare_models_calls (c : ClientConfig) (prompt : String)
    (models : List String) (temperature : ℚ) (system_prompt : Option String)
    (stream : Bool) : List OutboundArgs :=
  match batchValidate prompt system_prompt with
  | .error _ => []
  | .ok _ =>
    models.map (fun m =>
      ⟨m, buildMessages system_prompt prompt, temperature, stream, c.timeout⟩)

/-! ## Analytics (`analytics.py`)

The success filter in every aggregate is Python's `not r["error"]`, which is
true when the `error` field is `None` **or** the empty string (falsy). -/

/-- Python truthiness of an `Optional[str]` value. -/
def pyTruthy (s : Option String) : Bool :=
  match s with
  | none => false
  | some str => str ≠ ""

/-- The filtered list built by `get_fastest_model`/`get_slowest_model`
(lines 29-31, 45-47): results with `response_time is not None` and
`not r["error"]`. -/
def successfulTimed (results : List ModelResponse) : List ModelResponse :=
  results.filter (fun r => r.response_time.isSome && !pyTruthy r.error)

/-- The sort key `lambda r: r["response_time"]` on the filtered list, where
the field is always present; `0` stands in for the impossible `None`. -/
def timeOf (r : ModelResponse) : ℚ :=
  r.response_time.getD 0

/-- Python `min(xs, key=...)`: scan left to right, replacing the best only on
a strictly smaller key, so the first minimum wins. -/
def minByTime (results : List ModelResponse) : Option ModelResponse :=
  match results with
  | [] => none
  | x :: xs => some (xs.foldl (fun best r => if timeOf r < timeOf best then r else best) x)

/-- Python `max(xs, key=...)`: scan left to right, replacing the best only on
a strictly larger key, so the first maximum wins. -/
def maxByTime (results : List ModelResponse) : Option ModelResponse :=
  match results with
  | [] => none
  | x :: xs => some (xs.foldl (fun best r => if timeOf best < timeOf r then r else best) x)

/-- `ComparisonAnalytics.get_fastest_model` (lines 22-36). -/
def get_fastest_model (results : List ModelResponse) : Option String :=
  (minByTime (successfulTimed results)).map ModelResponse.model

/-- `ComparisonAnalytics.get_slowest_model` (lines 38-52). -/
def get_slowest_model (results : List ModelResponse) : Option String :=
  (maxByTime (successfulTimed results)).map ModelResponse.model

/-- `ComparisonAnalytics.get_success_rate` (lines 120-131): `0.0` on an empty
result list, otherwise `successful / len(results) * 100` with `successful`
counting results whose `error` is falsy. -/
def get_success_rate (results : List ModelResponse) : ℚ :=
  if results = [] then 0
  else ((results.filter (fun r => !pyTruthy r.error)).length : ℚ)
        / (results.length : ℚ) * 100

/-! ### The aggregate rules as the claims state them

Written from the claims' words — the filter keeps results whose
`errorMessage` is absent — to be compared with the source functions above. -/

/-- The claims' filter: `elapsedSeconds` present and `errorMessage` absent. -/
def claimEligible (results : List ModelResponse) : List ModelResponse :=
  results.filter (fun r => r.response_time.isSome && r.error == none)

/-- `fastest()` as the claim states it: stable argmin of `elapsedSeconds`
over results with `errorMessage` absent and `elapsedSeconds` present. -/
def fastestClaim (results : List ModelResponse) : Option String :=
  (minByTime (claimEligible results)).map ModelResponse.model

/-- `slowest()` as the claim states it: stable argmax of `elapsedSeconds`
over results with `errorMessage` absent and `elapsedSeconds` present. -/
def slowestClaim (results : List ModelResponse) : Option String :=
  (maxByTime (claimEligible results)).map ModelResponse.model

/-- `successRate` as the claim states it: `100 * successCount / totalCount`
where `successCount` counts results without an error (`errorMessage`
absent), `0.0` on the empty list. -/
def successRateClaim (results : List ModelResponse) : ℚ :=
  if results = [] then 0
  else 100 * ((results.filter (fun r => r.error == none)).length : ℚ)
        / (results.length : ℚ)

/-- The invariant of the data model: exactly one of the `response`/`error`
fields of a result is populated. -/
def exclusiveResult (r : ModelResponse) : Prop :=
  (r.response ≠ none ∧ r.error = none) ∨ (r.response = none ∧ r.error ≠ none)

/-! ## Concrete fixtures used to exercise the theorems -/

/-- A client built with the constructor's default arguments
(`max_retries=3`, `retry_delay=1.0`, `timeout=120`). -/
def clientW : ClientConfig := ⟨3, 1, 120⟩

/-- A collaborator whose every attempt succeeds with a fixed completion. -/
def envOkW : AttemptEnv := fun _ _ => .ok ⟨"hi", some ⟨1, 2, 3⟩, [], 1⟩

/-- A collaborator whose every attempt raises an exception rendered
`"boom"`. -/
def envFailW : AttemptEnv := fun _ _ => .exn "boom"

/-- The spec's worked analytics example: two successful results at 1.5s and
2.0s and one failed result. -/
def exListW : List ModelResponse :=
  [ ⟨"a", some "ra", none, some (mkRat 3 2), none, none, none, none⟩
  , ⟨"b", some "rb", none, some (mkRat 2 1), none, none, none, none⟩
  , ⟨"c", none, some "API Error", none, none, none, none, none⟩ ]

/-- A result list in which every result failed. -/
def exAllErrW : List ModelResponse :=
  [ ⟨"a", none, some "Error 1", none, none, none, none, none⟩
  , ⟨"b", none, some "Error 2", none, none, none, none, none⟩ ]

/-- A single result whose `error` field holds the empty string: the call
failed (an exception whose string rendering is empty), yet the field is
falsy in Python. -/
def exEmptyErrW : List ModelResponse :=
  [⟨"a", none, some "", some (mkRat 1 1), none, none, none, none⟩]

/-! ## Gather lemmas: the slot array is insensitive to completion order -/

lemma gatherSlots_foldl_of_not_mem {α : Type} (tasks : List α) (order : List ℕ)
    (init : ℕ → Option α) (i : ℕ) (h : i ∉ order) :
    order.foldl (fun slots j => fun k => if k = j then tasks[j]? else slots k)
      init i = init i := by
  induction order generalizing init with
  | nil => rfl
  | cons a rest ih =>
    have hia : i ≠ a := fun hia => h (hia ▸ List.mem_cons_self a rest)
    have hir : i ∉ rest := fun hir => h (List.mem_cons_of_mem a hir)
    simp only [List.foldl_cons]
    rw [ih _ hir]
    simp [hia]

lemma gatherSlots_foldl_of_mem {α : Type} (tasks : List α) (order : List ℕ)
    (init : ℕ → Option α) (i : ℕ) (h : i ∈ order) :
    order.foldl (fun slots j => fun k => if k = j then tasks[j]? else slots k)
      init i = tasks[i]? := by
  induction order generalizing init with
  | nil => cases h
  | cons a rest ih =>
    simp only [List.foldl_cons]
    by_cases hir : i ∈ rest
    · exact ih _ hir
    · have hia : i = a := by
        rcases List.mem_cons.1 h with h' | h'
        · exact h'
        · exact absurd h' hir
      rw [gatherSlots_foldl_of_not_mem _ _ _ _ hir]
      simp [hia]

lemma gatherSlots_eq_of_mem {α : Type} (tasks : List α) (order : List ℕ)
    (i : ℕ) (h : i ∈ order) :
    gatherSlots tasks order i = tasks[i]? :=
  gatherSlots_foldl_of_mem tasks order _ i h

/-- Gathering after a completion schedule that covers every task index
returns exactly the task list: completion order never affects the output. -/
lemma asyncGather_eq {α : Type} [Inhabited α] (tasks : List α) (order : List ℕ)
    (hcov : ∀ i, i < tasks.length → i ∈ order) :
    asyncGather tasks order = tasks := by
  apply List.ext_getElem
  · simp [asyncGather]
  · intro i h₁ h₂
    have hi : i < tasks.length := h₂
    simp only [asyncGather, List.getElem_map, List.getElem_range]
    rw [gatherSlots_eq_of_mem tasks order i (hcov i hi)]
    simp [List.getElem?_eq_getElem hi]

/-! ## Python `min`/`max` characterisation

Python's `min`/`max` with a key scan left to right and replace the running
best only when the new element strictly beats it, so the result is the
first-encountered optimum.  The scan is the fold
`xs.foldl (fun best r => if better r best then r else best) x`. -/

lemma foldl_best_decomp {α : Type} (better : α → α → Prop)
    [DecidableRel better]
    (htrans : ∀ a b c, better a b → better b c → better a c)
    (hgood : ∀ a b c, better a b → ¬ better c b → better a c) :
    ∀ (xs : List α) (x : α),
      ∃ l₁ l₂,
        x :: xs = l₁
            ++ (xs.foldl (fun best r => if better r best then r else best) x) :: l₂
        ∧ (∀ y ∈ l₁,
            better (xs.foldl (fun best r => if better r best then r else best) x) y)
        ∧ (∀ y ∈ l₂,
            ¬ better y (xs.foldl (fun best r => if better r best then r else best) x)) := by
  intro xs
  induction xs with
  | nil =>
    intro x
    exact ⟨[], [], rfl, by simp, by simp⟩
  | cons r rest ih =>
    intro x
    simp only [List.foldl_cons]
    by_cases hb : better r x
    · rw [if_pos hb]
      obtain ⟨l₁, l₂, heq, h₁, h₂⟩ := ih r
      have hbr : better (rest.foldl
            (fun best r => if better r best then r else best) r) r
          ∨ rest.foldl (fun best r => if better r best then r else best) r = r := by
        cases l₁ with
        | nil =>
          simp only [List.nil_append] at heq
          injection heq with h1 h2
          exact Or.inr h1.symm
        | cons a l₁' =>
          simp only [List.cons_append] at heq
          injection heq with h1 h2
          exact Or.inl (h1 ▸ h₁ a (List.mem_cons_self a l₁'))
      refine ⟨x :: l₁, l₂, ?_, ?_, h₂⟩
      · rw [List.cons_append, ← heq]
      · intro y hy
        rcases List.mem_cons.1 hy with rfl | hy'
        · rcases hbr with h' | h'
          · exact htrans _ r y h' hb
          · rw [h']
            exact hb
        · exact h₁ y hy'
    · rw [if_neg hb]
      obtain ⟨l₁, l₂, heq, h₁, h₂⟩ := ih x
      cases l₁ with
      | nil =>
        simp only [List.nil_append] at heq
        injection heq with h1 h2
        refine ⟨[], r :: l₂, ?_, by simp, ?_⟩
        · rw [List.nil_append, ← h1, ← h2]
        · intro y hy
          rcases List.mem_cons.1 hy with rfl | hy'
          · rw [← h1]
            exact hb
          · exact h₂ y hy'
      | cons a l₁' =>
        simp only [List.cons_append] at heq
        injection heq with h1 h2
        have hbx : better (rest.foldl
            (fun best r => if better r best then r else best) x) x :=
          h1 ▸ h₁ a (List.mem_cons_self a l₁')
        refine ⟨x :: r :: l₁', l₂, ?_, ?_, h₂⟩
        · simp only [List.cons_append]
          rw [← h2]
        · intro y hy
          rcases List.mem_cons.1 hy with rfl | hy'
          · exact hbx
          rcases List.mem_cons.1 hy' with rfl | hy''
          · exact hgood _ x y hbx hb
          · exact h₁ y (List.mem_cons_of_mem a hy'')

/-- A produced minimum is the first-encountered one: everything before it in
the list is strictly slower, everything after it no faster. -/
lemma minByTime_decomp (rs : List ModelResponse) (b : ModelResponse)
    (h : minByTime rs = some b) :
    ∃ l₁ l₂, rs = l₁ ++ b :: l₂
      ∧ (∀ y ∈ l₁, timeOf b < timeOf y)
      ∧ (∀ y ∈ l₂, timeOf b ≤ timeOf y) := by
  cases rs with
  | nil => cases h
  | cons x xs =>
    simp only [minByTime, Option.some.injEq] at h
    obtain ⟨l₁, l₂, heq, h₁, h₂⟩ :=
      foldl_best_decomp (fun r c => timeOf r < timeOf c)
        (fun a b c h1 h2 => lt_trans h1 h2)
        (fun a b c h1 h2 => lt_of_lt_of_le h1 (le_of_not_lt h2)) xs x
    rw [h] at heq h₁ h₂
    exact ⟨l₁, l₂, heq, h₁, fun y hy => le_of_not_lt (h₂ y hy)⟩

/-- A produced maximum is the first-encountered one: everything before it in
the list is strictly faster, everything after it no slower. -/
lemma maxByTime_decomp (rs : List ModelResponse) (b : ModelResponse)
    (h : maxByTime rs = some b) :
    ∃ l₁ l₂, rs = l₁ ++ b :: l₂
      ∧ (∀ y ∈ l₁, timeOf y < timeOf b)
      ∧ (∀ y ∈ l₂, timeOf y ≤ timeOf b) := by
  cases rs with
  | nil => cases h
  | cons x xs =>
    simp only [maxByTime, Option.some.injEq] at h
    obtain ⟨l₁, l₂, heq, h₁, h₂⟩ :=
      foldl_best_decomp (fun r c => timeOf c < timeOf r)
        (fun a b c h1 h2 => lt_trans h2 h1)
        (fun a b c h1 h2 => lt_of_le_of_lt (le_of_not_lt h2) h1) xs x
    rw [h] at heq h₁ h₂
    exact ⟨l₁, l₂, heq, h₁, fun y hy => le_of_not_lt (h₂ y hy)⟩

/-! ## Executor and orchestrator lemmas -/

/-- Every branch of `get_model_response` stamps the result with the model it
was invoked for. -/
lemma get_model_response_model (c : ClientConfig) (env : AttemptEnv)
    (model prompt : String) (temperature : ℚ) (system_prompt : Option String)
    (stream : Bool) :
    (get_model_response c env model prompt temperature system_prompt stream).model
      = model := by
  cases hcall : (callWithRetry c env
      ⟨model, buildMessages system_prompt prompt, temperature, stream,
        c.timeout⟩).1 with
  | exn e => simp [get_model_response, hcall]
  | ok s => cases stream <;> simp [get_model_response, hcall]

/-- Exactly one of `response`/`error` is populated, in every branch of
`get_model_response`. -/
lemma get_model_response_exclusive (c : ClientConfig) (env : AttemptEnv)
    (model prompt : String) (temperature : ℚ) (system_prompt : Option String)
    (stream : Bool) :
    exclusiveResult
      (get_model_response c env model prompt temperature system_prompt stream) := by
  unfold exclusiveResult
  cases hcall : (callWithRetry c env
      ⟨model, buildMessages system_prompt prompt, temperature, stream,
        c.timeout⟩).1 with
  | exn e => right; simp [get_model_response, hcall]
  | ok s =>
    cases stream <;> (left; simp [get_model_response, hcall])

/-- When `compare_models` returns a result list under a covering completion
schedule, that list is the per-model executor results in input order. -/
lemma compare_models_ok (c : ClientConfig) (env : AttemptEnv) (prompt : String)
    (models : List String) (temperature : ℚ) (system_prompt : Option String)
    (stream : Bool) (order : List ℕ) (l : List ModelResponse)
    (h : compare_models c env prompt models temperature system_prompt stream order
        = .ok l)
    (hcov : ∀ i, i < models.length → i ∈ order) :
    l = models.map (fun m =>
      get_model_response c env m prompt temperature system_prompt stream) := by
  unfold compare_models at h
  cases hv : batchValidate prompt system_prompt with
  | error e => rw [hv] at h; cases h
  | ok b =>
    rw [hv] at h
    cases h
    exact asyncGather_eq _ order (by simpa using hcov)

/-! ## Claim theorems -/

/-- C1: for every prompt, temperature, optional system prompt and model list,
a result list returned by `compare_models` has one entry per input model with
`output[i].model = models[i]`, whatever the completion schedule of the
concurrent per-model calls; with an empty model list it returns the empty
list and issues no remote call. -/
theorem compare_models_ordered (c : ClientConfig) (env : AttemptEnv)
    (prompt : String) (models : List String) (temperature : ℚ)
    (system_prompt : Option String) (stream : Bool) (order : List ℕ)
    (hcov : ∀ i, i < models.length → i ∈ order) :
    (∀ l, compare_models c env prompt models temperature system_prompt stream order
        = .ok l →
      l = models.map (fun m =>
            get_model_response c env m prompt temperature system_prompt stream)
      ∧ l.length = models.length
      ∧ l.map ModelResponse.model = models)
    ∧ (models = [] →
      compare_models_calls c prompt models temperature system_prompt stream = []
      ∧ ∀ l, compare_models c env prompt models temperature system_prompt stream order
          = .ok l → l = []) := by
  constructor
  · intro l hl
    have heq := compare_models_ok c env prompt models temperature system_prompt
      stream order l hl hcov
    refine ⟨heq, ?_, ?_⟩
    · rw [heq, List.length_map]
    · rw [heq, List.map_map]
      have hid : (ModelResponse.model ∘ fun m =>
          get_model_response c env m prompt temperature system_prompt stream)
          = id := funext fun m =>
        get_model_response_model c env m prompt temperature system_prompt stream
      rw [hid, List.map_id]
  · intro hm
    subst hm
    constructor
    · unfold compare_models_calls
      cases hv : batchValidate prompt system_prompt <;> simp
    · intro l hl
      simpa using compare_models_ok c env prompt [] temperature system_prompt
        stream order l hl hcov

/-- C1 witness: a two-model batch gathered under the reversed completion
schedule `[1, 0]` still reports results in input order. -/
theorem compare_models_ordered_witness :
    compare_models clientW envOkW "hello" ["m1", "m2"] 1 none false [1, 0]
      = .ok (["m1", "m2"].map (fun m =>
          get_model_response clientW envOkW m "hello" 1 none false))
    ∧ (["m1", "m2"].map (fun m =>
          get_model_response clientW envOkW m "hello" 1 none false)).map
        ModelResponse.model = ["m1", "m2"] := by
  have hok : compare_models clientW envOkW "hello" ["m1", "m2"] 1 none false [1, 0]
      = .ok (asyncGather (["m1", "m2"].map (fun m =>
          get_model_response clientW envOkW m "hello" 1 none false)) [1, 0]) := rfl
  have h := (compare_models_ordered clientW envOkW "hello" ["m1", "m2"] 1 none
    false [1, 0] (by decide)).1 _ hok
  exact ⟨by rw [hok, h.1], by rw [← h.1]; exact h.2.2⟩

/-- C2: every result produced by the single-call executor — and hence every
element of a gathered `compare_models` result list — has exactly one of
`response`/`error` set. -/
theorem result_exclusive (c : ClientConfig) (env : AttemptEnv)
    (prompt : String) (temperature : ℚ) (system_prompt : Option String)
    (stream : Bool) :
    (∀ model, exclusiveResult
        (get_model_response c env model prompt temperature system_prompt stream))
    ∧ (∀ (models : List String) (order : List ℕ),
        (∀ i, i < models.length → i ∈ order) →
        ∀ l, compare_models c env prompt models temperature system_prompt stream order
            = .ok l →
        ∀ r ∈ l, exclusiveResult r) := by
  refine ⟨fun model =>
    get_model_response_exclusive c env model prompt temperature system_prompt stream,
    ?_⟩
  intro models order hcov l hl r hr
  rw [compare_models_ok c env prompt models temperature system_prompt stream
    order l hl hcov] at hr
  obtain ⟨m, _, rfl⟩ := List.mem_map.1 hr
  exact get_model_response_exclusive c env m prompt temperature system_prompt stream

/-- C2 witness: the invariant at a concrete successful one-model batch. -/
theorem result_exclusive_witness :
    exclusiveResult (get_model_response clientW envOkW "m1" "hello" 1 none false) := by
  have hok : compare_models clientW envOkW "hello" ["m1"] 1 none false [0]
      = .ok (asyncGather (["m1"].map (fun m =>
          get_model_response clientW envOkW m "hello" 1 none false)) [0]) := rfl
  have h := (result_exclusive clientW envOkW "hello" 1 none false).2
    ["m1"] [0] (by decide) _ hok
  have hmem : get_model_response clientW envOkW "m1" "hello" 1 none false
      ∈ asyncGather (["m1"].map (fun m =>
          get_model_response clientW envOkW m "hello" 1 none false)) [0] := by
    rw [asyncGather_eq _ _ (by decide)]
    exact List.mem_singleton.2 rfl
  exact h _ hmem

/-- C4: whenever the retried remote call ends in an exception, the executor's
result carries that exception's string rendering as `error` and every metric
field — `response_time`, the token counts and `estimated_cost` — is absent. -/
theorem failure_clears_metrics (c : ClientConfig) (env : AttemptEnv)
    (model prompt : String) (temperature : ℚ) (system_prompt : Option String)
    (stream : Bool) (e : String)
    (h : (callWithRetry c env
        ⟨model, buildMessages system_prompt prompt, temperature, stream,
          c.timeout⟩).1 = .exn e) :
    get_model_response c env model prompt temperature system_prompt stream
      = ⟨model, none, some e, none, none, none, none, none⟩ := by
  simp [get_model_response, h]

/-- C4 witness: a client whose every attempt raises `"boom"` yields the fully
absent-metrics error result. -/
theorem failure_clears_metrics_witness :
    get_model_response clientW envFailW "m1" "hello" 1 none false
      = ⟨"m1", none, some "boom", none, none, none, none, none⟩ :=
  failure_clears_metrics clientW envFailW "m1" "hello" 1 none false "boom" rfl

/-- C9: the retry policy is the class-level decorator's hardcoded
`⟨3 attempts, wait_exponential(1, 1, 10)⟩`, whatever `max_retries` and
`retry_delay` the client was built with; two clients that agree on `timeout`
show identical retry behaviour and identical executor results on the same
inputs, and only `timeout` enters the outbound argument tuple. -/
theorem retry_policy_ignores_client_fields (c1 c2 : ClientConfig)
    (h : c1.timeout = c2.timeout) :
    callRetryPolicy c1 = callRetryPolicy c2
    ∧ callRetryPolicy c1 = ⟨3, 1, 1, 10⟩
    ∧ (∀ (env : AttemptEnv) (args : OutboundArgs),
        callWithRetry c1 env args = callWithRetry c2 env args)
    ∧ (∀ (env : AttemptEnv) (model prompt : String) (temperature : ℚ)
        (system_prompt : Option String) (stream : Bool),
        get_model_response c1 env model prompt temperature system_prompt stream
          = get_model_response c2 env model prompt temperature system_prompt stream) := by
  refine ⟨rfl, rfl, fun env args => rfl, ?_⟩
  intro env model prompt temperature system_prompt stream
  unfold get_model_response
  rw [h]
  rfl

/-- C9 witness: a client with `max_retries=5, retry_delay=2` behaves exactly
like the default `max_retries=3, retry_delay=1` client. -/
theorem retry_policy_ignores_client_fields_witness :
    callRetryPolicy ⟨5, 2, 120⟩ = callRetryPolicy clientW
    ∧ get_model_response ⟨5, 2, 120⟩ envFailW "m1" "hello" 1 none false
        = get_model_response clientW envFailW "m1" "hello" 1 none false := by
  have h := retry_policy_ignores_client_fields ⟨5, 2, 120⟩ clientW rfl
  exact ⟨h.1, h.2.2.2 envFailW "m1" "hello" 1 none false⟩

/-- C10: `compare_models` validates the system prompt only when it is truthy:
with `system_prompt = ""` the batch validation succeeds and the calls are
launched, although `validate_prompt("", "system_prompt")` itself fails with
the empty-input error. -/
theorem empty_system_prompt_not_validated (c : ClientConfig) (env : AttemptEnv)
    (prompt : String) (models : List String) (temperature : ℚ) (stream : Bool)
    (order : List ℕ)
    (hp : validate_prompt prompt "prompt" = .ok true) :
    batchValidate prompt (some "") = .ok true
    ∧ compare_models c env prompt models temperature (some "") stream order
        = .ok (asyncGather (models.map (fun m =>
            get_model_response c env m prompt temperature (some "") stream)) order)
    ∧ validate_prompt "" "system_prompt" = .error .emptyInput
    ∧ compare_models_calls c prompt models temperature (some "") stream
        = models.map (fun m =>
            ⟨m, buildMessages (some "") prompt, temperature, stream, c.timeout⟩) := by
  have hb : batchValidate prompt (some "") = .ok true := by
    unfold batchValidate
    rw [hp]
    rfl
  refine ⟨hb, ?_, rfl, ?_⟩
  · unfold compare_models
    rw [hb]
  · unfold compare_models_calls
    rw [hb]

/-- C10 witness: the empty system prompt is accepted at a concrete batch that
the system-prompt validator itself would reject. -/
theorem empty_system_prompt_not_validated_witness :
    compare_models clientW envOkW "hello" ["m1"] 1 (some "") false [0]
      = .ok (asyncGather (["m1"].map (fun m =>
          get_model_response clientW envOkW m "hello" 1 (some "") false)) [0])
    ∧ validate_prompt "" "system_prompt" = .error .emptyInput := by
  have h := empty_system_prompt_not_validated clientW envOkW "hello" ["m1"] 1
    false [0] rfl
  exact ⟨h.2.1, h.2.2.1⟩

/-- C3: for either prompt kind, validation fails with the empty-input error on
the empty string; with the too-long error when the text exceeds the kind's
limit (50,000 for prompts, 10,000 for system prompts); with the
invalid-character error when a within-limit text contains a NUL byte; and
succeeds otherwise — the checks applying in that order. -/
theorem validate_prompt_spec (text kind : String)
    (_hkind : kind = "prompt" ∨ kind = "system_prompt") :
    (text = "" → validate_prompt text kind = .error .emptyInput)
    ∧ (text ≠ "" → pyLen text > (if kind = "system_prompt" then 10000 else 50000) →
        validate_prompt text kind = .error .tooLong)
    ∧ (text ≠ "" → pyLen text ≤ (if kind = "system_prompt" then 10000 else 50000) →
        pyContainsChar text (Char.ofNat 0) = true →
        validate_prompt text kind = .error .invalidCharacter)
    ∧ (text ≠ "" → pyLen text ≤ (if kind = "system_prompt" then 10000 else 50000) →
        pyContainsChar text (Char.ofNat 0) = false →
        validate_prompt text kind = .ok true) := by
  clear _hkind
  by_cases hk : kind = "system_prompt" <;>
    refine ⟨fun h1 => ?_, fun h1 h2 => ?_, fun h1 h2 h3 => ?_, fun h1 h2 h3 => ?_⟩ <;>
    simp_all [validate_prompt, MAX_PROMPT_LENGTH, MAX_SYSTEM_PROMPT_LENGTH,
      Nat.not_lt.2]

/-- C3 witness: the spec's four probe inputs, including a 50,001-character
prompt. -/
theorem validate_prompt_spec_witness :
    validate_prompt "" "prompt" = .error .emptyInput
    ∧ validate_prompt "hello" "prompt" = .ok true
    ∧ validate_prompt "x\x00y" "prompt" = .error .invalidCharacter
    ∧ validate_prompt (String.mk (List.replicate 50001 'a')) "prompt"
        = .error .tooLong := by
  refine ⟨(validate_prompt_spec "" "prompt" (Or.inl rfl)).1 rfl, ?_, ?_, ?_⟩
  · exact (validate_prompt_spec "hello" "prompt" (Or.inl rfl)).2.2.2
      (by decide) (by decide) (by decide)
  · exact (validate_prompt_spec "x\x00y" "prompt" (Or.inl rfl)).2.2.1
      (by decide) (by decide) (by decide)
  · refine (validate_prompt_spec _ "prompt" (Or.inl rfl)).2.1 ?_ ?_
    · intro h
      have h2 : List.replicate 50001 'a' = ([] : List Char) :=
        congrArg String.data h
      have h3 := congrArg List.length h2
      rw [List.length_replicate, List.length_nil] at h3
      exact absurd h3 (by decide)
    · show (List.replicate 50001 'a').length > 50000
      rw [List.length_replicate]
      decide

/-- C5: `estimate_cost` is absent whenever either token count is absent;
whenever a pricing entry matches the normalized name it returns
`promptTokens/1e6 * inputRate + completionTokens/1e6 * outputRate`; and the
spec's probes evaluate to 0.0075, 0.00045 and absent. -/
theorem estimate_cost_spec :
    (∀ (m : String) (c : ℕ), estimate_cost m none (some c) = none)
    ∧ (∀ (m : String) (p : ℕ), estimate_cost m (some p) none = none)
    ∧ (∀ m : String, estimate_cost m none none = none)
    ∧ (∀ (m : String) (p c : ℕ) (i o : ℚ),
        costsFor (normalizeModel m) = some (i, o) →
        estimate_cost m (some p) (some c)
          = some ((p : ℚ) / 1000000 * i + (c : ℚ) / 1000000 * o))
    ∧ estimate_cost "gpt-4o" (some 1000) (some 500) = some 0.0075
    ∧ estimate_cost "gpt-4o-mini" (some 1000) (some 500) = some 0.00045
    ∧ estimate_cost "unknown-model" (some 1000) (some 500) = none := by
  refine ⟨fun m c => rfl, fun m p => rfl, fun m => rfl, ?_, ?_, ?_, rfl⟩
  · intro m p c i o h
    unfold estimate_cost
    rw [h]
  · have h : estimate_cost "gpt-4o" (some 1000) (some 500)
        = some (((1000 : ℕ) : ℚ) / 1000000 * 2.50
            + ((500 : ℕ) : ℚ) / 1000000 * 10.00) := rfl
    rw [h]
    norm_num
  · have h : estimate_cost "gpt-4o-mini" (some 1000) (some 500)
        = some (((1000 : ℕ) : ℚ) / 1000000 * 0.15
            + ((500 : ℕ) : ℚ) / 1000000 * 0.60) := rfl
    rw [h]
    norm_num

/-- C5 witness: the matching-entry clause at a table model, and an
absent-token probe. -/
theorem estimate_cost_spec_witness :
    estimate_cost "claude-3-opus-20240229" (some 10) (some 20)
      = some (((10 : ℕ) : ℚ) / 1000000 * 15.00 + ((20 : ℕ) : ℚ) / 1000000 * 75.00)
    ∧ estimate_cost "claude-3-opus-20240229" none (some 20) = none :=
  ⟨estimate_cost_spec.2.2.2.1 "claude-3-opus-20240229" 10 20 15.00 75.00 rfl,
   estimate_cost_spec.1 "claude-3-opus-20240229" 20⟩

/-- C6 counterexample: the normalized name `"gpt-4o-mini-x"` has no exact
table entry and is started by both the keys `"gpt-4o"` and `"gpt-4o-mini"`;
the longest such key is `"gpt-4o-mini"` with rates `(0.15, 0.60)`, but the
code applies the first-in-table key `"gpt-4o"` with rates `(2.50, 10.00)`:
at a million tokens each way the code charges `12.50`, not the `0.75` the
longest-prefix rule would give. -/
theorem fallback_longest_counterexample :
    lookupExact (normalizeModel "gpt-4o-mini-x") = none
    ∧ pyStartsWith "gpt-4o-mini" (normalizeModel "gpt-4o-mini-x") = true
    ∧ costsForLongest (normalizeModel "gpt-4o-mini-x") = some (0.15, 0.60)
    ∧ costsFor (normalizeModel "gpt-4o-mini-x") = some (2.50, 10.00)
    ∧ estimate_cost "gpt-4o-mini-x" (some 1000000) (some 1000000) = some 12.50
    ∧ ((12.50 : ℚ)
        ≠ (1000000 : ℚ) / 1000000 * 0.15 + (1000000 : ℚ) / 1000000 * 0.60) := by
  refine ⟨rfl, rfl, rfl, rfl, ?_, by norm_num⟩
  have h : estimate_cost "gpt-4o-mini-x" (some 1000000) (some 1000000)
      = some (((1000000 : ℕ) : ℚ) / 1000000 * 2.50
          + ((1000000 : ℕ) : ℚ) / 1000000 * 10.00) := rfl
  rw [h]
  norm_num

/-- C6 amended: when the normalized name has no exact entry and the fallback
scan fires, the entry applied is the **first** key in the table's insertion
order that starts the normalized name — every table entry before it fails
the starts-with test — and the cost uses that entry's rates. -/
theorem fallback_first_match (m : String)
    (hexact : lookupExact (normalizeModel m) = none) (cs : ℚ × ℚ)
    (h : costsFor (normalizeModel m) = some cs) :
    (∃ (k : String) (l₁ l₂ : List (String × ℚ × ℚ)),
        MODEL_COSTS = l₁ ++ (k, cs) :: l₂
        ∧ pyStartsWith k (normalizeModel m) = true
        ∧ ∀ kv ∈ l₁, pyStartsWith kv.1 (normalizeModel m) = false)
    ∧ ∀ p c : ℕ, estimate_cost m (some p) (some c)
        = some ((p : ℚ) / 1000000 * cs.1 + (c : ℚ) / 1000000 * cs.2) := by
  constructor
  · have hf : fallbackMatch (normalizeModel m) = some cs := by
      unfold costsFor at h
      rw [hexact] at h
      exact h
    unfold fallbackMatch at hf
    obtain ⟨kv, hkv, hcs⟩ := Option.map_eq_some'.1 hf
    obtain ⟨hp, as, bs, heq, hprev⟩ := List.find?_eq_some.1 hkv
    refine ⟨kv.1, as, bs, ?_, hp, ?_⟩
    · obtain ⟨k1, k2⟩ := kv
      cases hcs
      exact heq
    · intro kv' hk'
      simpa using hprev kv' hk'
  · obtain ⟨i, o⟩ := cs
    intro p c
    unfold estimate_cost
    rw [h]

/-- C6 amended witness: for `"gpt-4o-mini-x"` the applied entry is the first
matching key with rates `(2.50, 10.00)`, and the cost formula uses those
rates. -/
theorem fallback_first_match_witness :
    (∃ (k : String) (l₁ l₂ : List (String × ℚ × ℚ)),
        MODEL_COSTS = l₁ ++ (k, ((2.50 : ℚ), (10.00 : ℚ))) :: l₂
        ∧ pyStartsWith k (normalizeModel "gpt-4o-mini-x") = true
        ∧ ∀ kv ∈ l₁, pyStartsWith kv.1 (normalizeModel "gpt-4o-mini-x") = false)
    ∧ estimate_cost "gpt-4o-mini-x" (some 3) (some 7)
        = some (((3 : ℕ) : ℚ) / 1000000 * ((2.50 : ℚ), (10.00 : ℚ)).1
            + ((7 : ℕ) : ℚ) / 1000000 * ((2.50 : ℚ), (10.00 : ℚ)).2) := by
  have h := fallback_first_match "gpt-4o-mini-x" rfl (2.50, 10.00) rfl
  exact ⟨h.1, h.2 3 7⟩

/-- C7 counterexample: a result whose `error` field holds the empty string
has its `errorMessage` present, so the claim's filter (`errorMessage`
absent) excludes it and yields no fastest/slowest model — but the code's
filter is Python falsiness, which admits it: `get_fastest_model` and
`get_slowest_model` both return `"a"`. -/
theorem fastest_claim_counterexample :
    get_fastest_model exEmptyErrW = some "a"
    ∧ fastestClaim exEmptyErrW = none
    ∧ get_slowest_model exEmptyErrW = some "a"
    ∧ slowestClaim exEmptyErrW = none :=
  ⟨rfl, rfl, rfl, rfl⟩

/-- C7 amended: `fastest()`/`slowest()` are the stable argmin/argmax of
`elapsedSeconds` over the results with `elapsedSeconds` present whose
`errorMessage` is absent **or the empty string** (Python falsiness), absent
exactly when no such result exists, with ties resolved by first-encountered
order; over the spec's worked example they yield `"a"` and `"b"`, and both
are absent when every result is an error. -/
theorem fastest_slowest_amended (results : List ModelResponse) :
    (get_fastest_model results = none ↔ successfulTimed results = [])
    ∧ (get_slowest_model results = none ↔ successfulTimed results = [])
    ∧ (∀ m, get_fastest_model results = some m →
        ∃ r l₁ l₂, successfulTimed results = l₁ ++ r :: l₂ ∧ r.model = m
          ∧ (∀ y ∈ l₁, timeOf r < timeOf y)
          ∧ (∀ y ∈ successfulTimed results, timeOf r ≤ timeOf y))
    ∧ (∀ m, get_slowest_model results = some m →
        ∃ r l₁ l₂, successfulTimed results = l₁ ++ r :: l₂ ∧ r.model = m
          ∧ (∀ y ∈ l₁, timeOf y < timeOf r)
          ∧ (∀ y ∈ successfulTimed results, timeOf y ≤ timeOf r))
    ∧ get_fastest_model exListW = some "a"
    ∧ get_slowest_model exListW = some "b"
    ∧ get_fastest_model exAllErrW = none
    ∧ get_slowest_model exAllErrW = none := by
  refine ⟨?_, ?_, ?_, ?_, rfl, rfl, rfl, rfl⟩
  · cases h : successfulTimed results <;>
      simp [get_fastest_model, minByTime, h]
  · cases h : successfulTimed results <;>
      simp [get_slowest_model, maxByTime, h]
  · intro m hm
    obtain ⟨b, hb, hbm⟩ := Option.map_eq_some'.1 hm
    obtain ⟨l₁, l₂, heq, h₁, h₂⟩ := minByTime_decomp _ b hb
    refine ⟨b, l₁, l₂, heq, hbm, h₁, ?_⟩
    intro y hy
    rw [heq] at hy
    rcases List.mem_append.1 hy with hy' | hy'
    · exact le_of_lt (h₁ y hy')
    rcases List.mem_cons.1 hy' with rfl | hy''
    · exact le_refl _
    · exact h₂ y hy''
  · intro m hm
    obtain ⟨b, hb, hbm⟩ := Option.map_eq_some'.1 hm
    obtain ⟨l₁, l₂, heq, h₁, h₂⟩ := maxByTime_decomp _ b hb
    refine ⟨b, l₁, l₂, heq, hbm, h₁, ?_⟩
    intro y hy
    rw [heq] at hy
    rcases List.mem_append.1 hy with hy' | hy'
    · exact le_of_lt (h₁ y hy')
    rcases List.mem_cons.1 hy' with rfl | hy''
    · exact le_refl _
    · exact h₂ y hy''

/-- C7 amended witness: the worked example, with the argmin decomposition at
the fastest model `"a"`. -/
theorem fastest_slowest_amended_witness :
    get_fastest_model exListW = some "a"
    ∧ (∃ r l₁ l₂, successfulTimed exListW = l₁ ++ r :: l₂ ∧ r.model = "a"
        ∧ (∀ y ∈ l₁, timeOf r < timeOf y)
        ∧ (∀ y ∈ successfulTimed exListW, timeOf r ≤ timeOf y)) := by
  have h := fastest_slowest_amended exListW
  exact ⟨h.2.2.2.2.1, h.2.2.1 "a" h.2.2.2.2.1⟩

/-- C8 counterexample: on a single result whose `error` is the empty string
the code counts a success (`not ""` is true in Python) and returns `100.0`,
while the claim's `successCount` (results without an error) is `0`, giving
`0.0`. -/
theorem success_rate_claim_counterexample :
    get_success_rate exEmptyErrW = 100
    ∧ successRateClaim exEmptyErrW = 0
    ∧ (100 : ℚ) ≠ 0 := by
  refine ⟨?_, ?_, by norm_num⟩
  · have h : get_success_rate exEmptyErrW = ((1 : ℕ) : ℚ) / ((1 : ℕ) : ℚ) * 100 := rfl
    rw [h]
    norm_num
  · have h : successRateClaim exEmptyErrW = 100 * ((0 : ℕ) : ℚ) / ((1 : ℕ) : ℚ) := rfl
    rw [h]
    norm_num

/-- C8 amended: `get_success_rate` returns
`100 * successCount / totalCount` where `successCount` counts results whose
`error` is absent **or the empty string** (Python falsiness), and exactly
`0.0` on the empty list; over two successes and one failure it is `200/3`
(≈ 66.67). -/
theorem success_rate_amended (results : List ModelResponse) :
    (results = [] → get_success_rate results = 0)
    ∧ (results ≠ [] → get_success_rate results
        = 100 * ((results.filter (fun r => !pyTruthy r.error)).length : ℚ)
            / (results.length : ℚ))
    ∧ get_success_rate ([] : List ModelResponse) = 0
    ∧ get_success_rate exListW = 200 / 3 := by
  refine ⟨fun h => by simp [get_success_rate, h], fun h => ?_, by simp [get_success_rate], ?_⟩
  · unfold get_success_rate
    rw [if_neg h]
    ring
  · have h : get_success_rate exListW = ((2 : ℕ) : ℚ) / ((3 : ℕ) : ℚ) * 100 := rfl
    rw [h]
    norm_num

/-- C8 amended witness: the nonempty-list formula at the worked example. -/
theorem success_rate_amended_witness :
    get_success_rate exListW
      = 100 * ((exListW.filter (fun r => !pyTruthy r.error)).length : ℚ)
          / (exListW.length : ℚ) :=
  (success_rate_amended exListW).2.1 (by simp [exListW])

end LLMCompare
